import Mathlib

/-!
Verification of the live voice relay of `PersonalFinanceApp`
(backend `liveVoiceServer.ts`, present in two near-identical variants in the
repository).  The definitions below are a shallow embedding of that code:
byte buffers are `List Nat` (each entry a byte value), Node `Buffer`
operations are translated to explicit list operations, the WebSocket and
Gemini handles are represented by their observable effects (lists of
emitted messages and upstream actions), and the session registry `Map` is
an association list.
-/

set_option autoImplicit false

namespace LiveVoice

/-! ### Byte buffers and base64

`Buffer.from(s, 'base64')` and `buf.toString('base64')` from the source are
modelled by an executable base64 codec over `List Nat` byte sequences. -/

/-- The standard base64 alphabet, as used by Node's `Buffer` codec. -/
def b64Alphabet : List Char :=
  "ABCDEFGHIJKLMNOPQRSTUVWXYZabcdefghijklmnopqrstuvwxyz0123456789+/".toList

/-- Character for a 6-bit group. -/
def b64Char (n : Nat) : Char := b64Alphabet.getD n '='

/-- 6-bit value of an alphabet character; 64 for anything else (incl. `=`). -/
def b64Val (c : Char) : Nat := b64Alphabet.indexOf c

/-- Base64 encoding of a byte sequence (`buf.toString('base64')`). -/
def b64encode : List Nat → List Char
  | [] => []
  | [a] => [b64Char (a / 4), b64Char (a % 4 * 16), '=', '=']
  | [a, b] => [b64Char (a / 4), b64Char (a % 4 * 16 + b / 16), b64Char (b % 16 * 4), '=']
  | a :: b :: c :: rest =>
      b64Char (a / 4) :: b64Char (a % 4 * 16 + b / 16) :: b64Char (b % 16 * 4 + c / 64) ::
        b64Char (c % 64) :: b64encode rest

/-- Base64 decoding of a character sequence (`Buffer.from(s, 'base64')`). -/
def b64decode : List Char → List Nat
  | a :: b :: c :: d :: rest =>
      if d = '=' then
        if c = '=' then [b64Val a * 4 + b64Val b / 16]
        else [b64Val a * 4 + b64Val b / 16, b64Val b % 16 * 16 + b64Val c / 4]
      else
        (b64Val a * 4 + b64Val b / 16) :: (b64Val b % 16 * 16 + b64Val c / 4) ::
          (b64Val c % 4 * 64 + b64Val d) :: b64decode rest
  | _ => []

theorem b64Val_b64Char : ∀ n < 64, b64Val (b64Char n) = n := by decide

theorem b64Char_ne_pad : ∀ n < 64, b64Char n ≠ '=' := by decide

/-- A byte sequence survives a base64 round trip. -/
theorem b64decode_b64encode (l : List Nat) (h : ∀ x ∈ l, x < 256) :
    b64decode (b64encode l) = l := by
  induction l using b64encode.induct with
  | case1 => rfl
  | case2 a =>
    have ha : a < 256 := h a (by simp)
    simp only [b64encode, b64decode, reduceIte]
    rw [b64Val_b64Char (a / 4) (by omega), b64Val_b64Char (a % 4 * 16) (by omega)]
    have e1 : a / 4 * 4 + a % 4 * 16 / 16 = a := by omega
    rw [e1]
  | case3 a b =>
    have ha : a < 256 := h a (by simp)
    have hb : b < 256 := h b (by simp)
    simp only [b64encode, b64decode, reduceIte]
    rw [if_neg (b64Char_ne_pad (b % 16 * 4) (by omega))]
    rw [b64Val_b64Char (a / 4) (by omega),
      b64Val_b64Char (a % 4 * 16 + b / 16) (by omega),
      b64Val_b64Char (b % 16 * 4) (by omega)]
    have e1 : a / 4 * 4 + (a % 4 * 16 + b / 16) / 16 = a := by omega
    have e2 : (a % 4 * 16 + b / 16) % 16 * 16 + b % 16 * 4 / 4 = b := by omega
    rw [e1, e2]
  | case4 a b c rest ih =>
    have ha : a < 256 := h a (by simp)
    have hb : b < 256 := h b (by simp)
    have hc : c < 256 := h c (by simp)
    have hrest : ∀ x ∈ rest, x < 256 := fun x hx => h x (by simp [hx])
    simp only [b64encode, b64decode]
    rw [if_neg (b64Char_ne_pad (c % 64) (by omega))]
    rw [b64Val_b64Char (a / 4) (by omega),
      b64Val_b64Char (a % 4 * 16 + b / 16) (by omega),
      b64Val_b64Char (b % 16 * 4 + c / 64) (by omega),
      b64Val_b64Char (c % 64) (by omega), ih hrest]
    have e1 : a / 4 * 4 + (a % 4 * 16 + b / 16) / 16 = a := by omega
    have e2 : (a % 4 * 16 + b / 16) % 16 * 16 + (b % 16 * 4 + c / 64) / 4 = b := by omega
    have e3 : (b % 16 * 4 + c / 64) % 4 * 64 + c % 64 = c := by omega
    rw [e1, e2, e3]

/-! ### WAV framer

`LiveVoiceServer.createWavHeader(dataLength, sampleRate)` builds a 44-byte
header with Node `Buffer` writes; `Buffer.alloc`, `buf.write(ascii, off)`,
`buf.writeUInt16LE` and `buf.writeUInt32LE` are modelled below. -/

/-- `Buffer.alloc n` (zero-filled). -/
def bufAlloc (n : Nat) : List Nat := List.replicate n 0

/-- Overwrite `bytes.length` bytes of `buf` starting at `off`. -/
def bufWrite (buf : List Nat) (bytes : List Nat) (off : Nat) : List Nat :=
  buf.take off ++ bytes ++ buf.drop (off + bytes.length)

/-- Little-endian bytes of a 16-bit value (`writeUInt16LE`). -/
def uint16LE (v : Nat) : List Nat := [v % 256, v / 256 % 256]

/-- Little-endian bytes of a 32-bit value (`writeUInt32LE`). -/
def uint32LE (v : Nat) : List Nat :=
  [v % 256, v / 256 % 256, v / 65536 % 256, v / 16777216 % 256]

/-- ASCII bytes of a string (`buf.write(s, off)`). -/
def asciiBytes (s : String) : List Nat := s.toList.map Char.toNat

/-- `LiveVoiceServer.createWavHeader`, write for write. -/
def createWavHeader (dataLength sampleRate : Nat) : List Nat :=
  let h := bufAlloc 44
  let h := bufWrite h (asciiBytes "RIFF") 0
  let h := bufWrite h (uint32LE (36 + dataLength)) 4
  let h := bufWrite h (asciiBytes "WAVE") 8
  let h := bufWrite h (asciiBytes "fmt ") 12
  let h := bufWrite h (uint32LE 16) 16
  let h := bufWrite h (uint16LE 1) 20
  let h := bufWrite h (uint16LE 1) 22
  let h := bufWrite h (uint32LE sampleRate) 24
  let h := bufWrite h (uint32LE (sampleRate * 2)) 28
  let h := bufWrite h (uint16LE 2) 32
  let h := bufWrite h (uint16LE 16) 34
  let h := bufWrite h (asciiBytes "data") 36
  let h := bufWrite h (uint32LE dataLength) 40
  h

/-- WAV framing as performed at turn completion:
`Buffer.concat([this.createWavHeader(fullAudio.length, rate), fullAudio])`. -/
def frameWav (pcm : List Nat) (sampleRate : Nat) : List Nat :=
  createWavHeader pcm.length sampleRate ++ pcm

/-- `buf.readUInt32LE(off)`. -/
def readUInt32LE (buf : List Nat) (off : Nat) : Nat :=
  match buf.drop off with
  | b0 :: b1 :: b2 :: b3 :: _ => b0 + 256 * b1 + 65536 * b2 + 16777216 * b3
  | _ => 0

set_option maxHeartbeats 2000000 in
/-- The header in closed form: all `Buffer` writes carried out. -/
theorem createWavHeader_eq (d sr : Nat) :
    createWavHeader d sr =
      [82, 73, 70, 70,
       (36 + d) % 256, (36 + d) / 256 % 256, (36 + d) / 65536 % 256, (36 + d) / 16777216 % 256,
       87, 65, 86, 69,
       102, 109, 116, 32,
       16, 0, 0, 0,
       1, 0,
       1, 0,
       sr % 256, sr / 256 % 256, sr / 65536 % 256, sr / 16777216 % 256,
       sr * 2 % 256, sr * 2 / 256 % 256, sr * 2 / 65536 % 256, sr * 2 / 16777216 % 256,
       2, 0,
       16, 0,
       100, 97, 116, 97,
       d % 256, d / 256 % 256, d / 65536 % 256, d / 16777216 % 256] := by
  have hR : asciiBytes "RIFF" = [82, 73, 70, 70] := rfl
  have hW : asciiBytes "WAVE" = [87, 65, 86, 69] := rfl
  have hF : asciiBytes "fmt " = [102, 109, 116, 32] := rfl
  have hD : asciiBytes "data" = [100, 97, 116, 97] := rfl
  simp only [createWavHeader, bufAlloc, bufWrite, hR, hW, hF, hD, uint16LE, uint32LE,
    List.replicate, List.length_cons, List.length_nil, Nat.reduceAdd,
    List.take_succ_cons, List.take_zero, List.drop_succ_cons, List.drop_zero,
    List.cons_append, List.nil_append]

/-- C2: for every PCM byte sequence `pcm` and sample rate `sr`, the WAV framing
function produces a buffer of length `44 + pcm.length`, whose bytes 0-3 are the
ASCII string "RIFF", bytes 8-11 are "WAVE", whose little-endian 32-bit integer
at offset 40 equals `pcm.length`, and whose bytes from offset 44 onward are
exactly `pcm` (stripping the 44-byte header recovers the original PCM). -/
theorem wav_frame_spec (pcm : List Nat) (sr : Nat) (h : pcm.length < 4294967296) :
    (frameWav pcm sr).length = 44 + pcm.length
    ∧ (frameWav pcm sr).take 4 = asciiBytes "RIFF"
    ∧ ((frameWav pcm sr).drop 8).take 4 = asciiBytes "WAVE"
    ∧ readUInt32LE (frameWav pcm sr) 40 = pcm.length
    ∧ (frameWav pcm sr).drop 44 = pcm := by
  refine ⟨?_, ?_, ?_, ?_, ?_⟩
  · simp only [frameWav, createWavHeader_eq]
    simp only [List.length_append, List.length_cons, List.length_nil]
  · simp only [frameWav, createWavHeader_eq]
    rfl
  · simp only [frameWav, createWavHeader_eq]
    rfl
  · simp only [frameWav, createWavHeader_eq, readUInt32LE,
      List.cons_append, List.nil_append, List.drop_succ_cons, List.drop_zero]
    omega
  · simp only [frameWav, createWavHeader_eq,
      List.cons_append, List.nil_append, List.drop_succ_cons, List.drop_zero]

theorem wav_frame_spec_witness :
    ([9, 8, 7] : List Nat).length < 4294967296
    ∧ ((frameWav [9, 8, 7] 24000).length = 44 + ([9, 8, 7] : List Nat).length
       ∧ (frameWav [9, 8, 7] 24000).take 4 = asciiBytes "RIFF"
       ∧ ((frameWav [9, 8, 7] 24000).drop 8).take 4 = asciiBytes "WAVE"
       ∧ readUInt32LE (frameWav [9, 8, 7] 24000) 40 = ([9, 8, 7] : List Nat).length
       ∧ (frameWav [9, 8, 7] 24000).drop 44 = [9, 8, 7]) :=
  ⟨by decide, wav_frame_spec [9, 8, 7] 24000 (by decide)⟩

/-! ### Sessions and relay-to-client messages

`LiveSession` keeps the fields the claims touch.  `clientWs` is represented
by its observable `readyState === WebSocket.OPEN` flag (`clientOpen`); the
`geminiSession` handle is represented by the upstream actions the handlers
emit.  Timestamps are `Nat` milliseconds. -/

inductive SessionState where
  | connecting
  | connected
  | error
  | closing
  | closed
  deriving DecidableEq, Repr

structure Session where
  id : String
  isActive : Bool
  sessionState : SessionState
  audioResponseBuffer : List (List Nat)
  clientOpen : Bool
  createdAt : Nat
  lastActivity : Nat
  deriving DecidableEq, Repr

/-- Payload of `getSessionInfo`. -/
structure SessionInfo where
  id : String
  state : SessionState
  isActive : Bool
  createdAt : Nat
  lastActivity : Nat
  uptime : Nat
  deriving DecidableEq, Repr

/-- A JSON message sent to the client, one constructor per `type` value the
server ever writes. -/
inductive ClientMsg where
  | sessionStarted (sessionId : String)
  | transcript (text : String) (isUser : Bool)
  | transcription (text : String) (isUser : Bool)
  | audio (payload : List Char)
  | errorMsg (message : String)
  | pong
  | sessionInfoResponse (info : SessionInfo)
  deriving DecidableEq, Repr

/-- The literal `type` field the server writes for each message. -/
def ClientMsg.typeStr : ClientMsg → String
  | .sessionStarted _ => "session_started"
  | .transcript _ _ => "transcript"
  | .transcription _ _ => "transcription"
  | .audio _ => "audio"
  | .errorMsg _ => "error"
  | .pong => "pong"
  | .sessionInfoResponse _ => "session_info_response"

/-- An effect on the upstream Gemini handle. -/
inductive UpstreamAction where
  | sendRealtimeAudio (payload : List Char) (mimeType : String)
  | sendRealtimeResampled (input : List Nat)
  | startTranscode (input : List Nat)
  | sendTurnComplete
  | close
  deriving DecidableEq, Repr

/-- `sendToClient`: the send happens only when the socket is still open. -/
def sendToClient (wsOpen : Bool) (m : ClientMsg) : List ClientMsg :=
  if wsOpen then [m] else []

/-! ### Upstream (Gemini) messages and `handleGeminiMessage` -/

structure GeminiPart where
  text : Option String := none
  deriving DecidableEq, Repr

structure GeminiModelTurn where
  parts : List GeminiPart := []
  deriving DecidableEq, Repr

structure GeminiServerContent where
  modelTurn : Option GeminiModelTurn := none
  turnComplete : Bool := false
  deriving DecidableEq, Repr

structure GeminiClientTurn where
  parts : List GeminiPart := []
  deriving DecidableEq, Repr

structure GeminiClientContent where
  turns : List GeminiClientTurn := []
  deriving DecidableEq, Repr

/-- The fields of an upstream callback message the handler reads.  `data` is
the base64 audio string; JS truthiness makes the handler skip empty
strings, which the embedding mirrors with explicit `isEmpty` tests. -/
structure GeminiMessage where
  data : Option (List Char) := none
  serverContent : Option GeminiServerContent := none
  clientContent : Option GeminiClientContent := none
  deriving DecidableEq, Repr

/-- Texts of the parts whose `text` field is truthy (present and non-empty),
in order: the `if (part.text)` loop bodies run exactly for these. -/
def truthyTexts (parts : List GeminiPart) : List String :=
  parts.filterMap (fun p =>
    match p.text with
    | some t => if t.isEmpty then none else some t
    | none => none)

/-- `LiveVoiceServer.handleGeminiMessage`, as a function from the session and
the upstream message to the updated session and the messages sent to the
client (in emission order). -/
def handleGeminiMessage (s : Session) (m : GeminiMessage) : Session × List ClientMsg :=
  if s.isActive = false then (s, []) else
  let s1 : Session :=
    match m.data with
    | some d =>
        if d.isEmpty then s
        else { s with audioResponseBuffer := s.audioResponseBuffer ++ [b64decode d] }
    | none => s
  let transcriptOuts : List ClientMsg :=
    match m.serverContent with
    | some sc =>
        match sc.modelTurn with
        | some mt =>
            (truthyTexts mt.parts).flatMap (fun t =>
              sendToClient s.clientOpen (.transcript t false))
        | none => []
    | none => []
  let flush : Session × List ClientMsg :=
    match m.serverContent with
    | some sc =>
        if sc.turnComplete then
          if 0 < s1.audioResponseBuffer.length then
            ({ s1 with audioResponseBuffer := [] },
             sendToClient s.clientOpen
               (.audio (b64encode (frameWav s1.audioResponseBuffer.flatten 24000))))
          else (s1, [])
        else (s1, [])
    | none => (s1, [])
  let transcriptionOuts : List ClientMsg :=
    match m.clientContent with
    | some cc =>
        cc.turns.flatMap (fun turn =>
          (truthyTexts turn.parts).flatMap (fun t =>
            sendToClient s.clientOpen (.transcription t true)))
    | none => []
  (flush.1, transcriptOuts ++ flush.2 ++ transcriptionOuts)

/-- An upstream message carrying only an audio fragment. -/
def dataOnlyMsg (d : List Char) : GeminiMessage := { data := some d }

/-- The upstream turn-complete signal. -/
def turnCompleteMsg : GeminiMessage :=
  { serverContent := some { turnComplete := true } }

/-- C1: a data-only upstream message appends its decoded fragment to
`audioResponseBuffer` (in arrival order) and sends nothing; when the
turn-complete signal arrives with a non-empty buffer, the relay sends exactly
one `audio` message whose base64 payload is the 44-byte WAV header followed by
the in-order concatenation of all buffered fragments, and the buffer is empty
afterwards; when it arrives with an empty buffer, nothing is sent. -/
theorem turn_reassembly (s : Session)
    (hA : s.isActive = true) (hO : s.clientOpen = true) :
    (s.audioResponseBuffer ≠ [] →
       handleGeminiMessage s turnCompleteMsg =
         ({ s with audioResponseBuffer := [] },
          [ClientMsg.audio (b64encode (frameWav s.audioResponseBuffer.flatten 24000))]))
    ∧ (s.audioResponseBuffer = [] →
       handleGeminiMessage s turnCompleteMsg = (s, []))
    ∧ (∀ d, d ≠ [] →
       handleGeminiMessage s (dataOnlyMsg d) =
         ({ s with audioResponseBuffer := s.audioResponseBuffer ++ [b64decode d] }, [])) := by
  refine ⟨?_, ?_, ?_⟩
  · intro hne
    have hlen : 0 < s.audioResponseBuffer.length := List.length_pos.mpr hne
    simp [handleGeminiMessage, turnCompleteMsg, sendToClient, hA, hO, hlen]
  · intro hemp
    simp [handleGeminiMessage, turnCompleteMsg, hA, hemp]
  · intro d hd
    have hne : d.isEmpty = false := by
      cases d with
      | nil => exact absurd rfl hd
      | cons c cs => rfl
    simp [handleGeminiMessage, dataOnlyMsg, hA, hne]

theorem turn_reassembly_witness :
    (⟨"s1", true, .connected, [[1, 2], [3]], true, 0, 0⟩ : Session).isActive = true
    ∧ handleGeminiMessage ⟨"s1", true, .connected, [[1, 2], [3]], true, 0, 0⟩ turnCompleteMsg =
        (⟨"s1", true, .connected, [], true, 0, 0⟩,
         [ClientMsg.audio (b64encode (frameWav [1, 2, 3] 24000))]) :=
  ⟨rfl, by
    have h := (turn_reassembly ⟨"s1", true, .connected, [[1, 2], [3]], true, 0, 0⟩ rfl rfl).1
      (by decide)
    simpa using h⟩

/-! ### Audio format normalizer (`processAudioForGemini`) -/

/-- `audioData: Buffer | string` from the source signature. -/
inductive AudioSource where
  | buf (bytes : List Nat)
  | b64 (s : List Char)
  deriving DecidableEq, Repr

/-- `Buffer.isBuffer(audioData) ? audioData : Buffer.from(audioData, 'base64')`. -/
def AudioSource.toBuffer : AudioSource → List Nat
  | .buf b => b
  | .b64 s => b64decode s

/-- Helper for `String.prototype.includes`. -/
def includesAux (sub : List Char) : List Char → Bool
  | [] => sub.isEmpty
  | c :: rest => List.isPrefixOf sub (c :: rest) || includesAux sub rest

/-- `hay.includes(sub)`. -/
def strIncludes (hay sub : String) : Bool := includesAux sub.toList hay.toList

/-- `mimeType && mimeType.includes(sub)` (an absent tag is falsy). -/
def mimeIncludes (mimeType : Option String) (sub : String) : Bool :=
  match mimeType with
  | some m => strIncludes m sub
  | none => false

/-- Which of the three normalizer branches runs, and with what payload.  The
`webm` branch hands its input to the external ffmpeg subprocess; the `pcm`
branch resolves immediately with the base64 of the unchanged bytes; the
remaining branch hands the input to the `wavefile` library for in-process
resampling. -/
inductive NormalizeResult where
  | ffmpegPath (input : List Nat)
  | passthrough (payload : List Char)
  | wavefilePath (input : List Nat)
  deriving DecidableEq, Repr

/-- `LiveVoiceServer.processAudioForGemini`: branch selection and the data
each branch consumes or resolves with. -/
def processAudioForGemini (audioData : AudioSource) (mimeType : Option String) :
    NormalizeResult :=
  let buffer := audioData.toBuffer
  if mimeIncludes mimeType "webm" then .ffmpegPath buffer
  else if mimeIncludes mimeType "pcm" then .passthrough (b64encode buffer)
  else .wavefilePath buffer

/-- C5: for audio tagged as 16kHz PCM, normalize is identity plus base64:
base64-decoding the result returns exactly the input bytes. -/
theorem pcm_passthrough_roundtrip (x : List Nat) (h : ∀ b ∈ x, b < 256) :
    processAudioForGemini (.buf x) (some "audio/pcm;rate=16000") =
      .passthrough (b64encode x)
    ∧ b64decode (b64encode x) = x := by
  constructor
  · have h1 : mimeIncludes (some "audio/pcm;rate=16000") "webm" = false := by decide
    have h2 : mimeIncludes (some "audio/pcm;rate=16000") "pcm" = true := by decide
    simp [processAudioForGemini, AudioSource.toBuffer, h1, h2]
  · exact b64decode_b64encode x h

theorem pcm_passthrough_roundtrip_witness :
    (∀ b ∈ ([0, 1, 255] : List Nat), b < 256)
    ∧ (processAudioForGemini (.buf [0, 1, 255]) (some "audio/pcm;rate=16000") =
         .passthrough (b64encode [0, 1, 255])
       ∧ b64decode (b64encode [0, 1, 255]) = [0, 1, 255]) :=
  ⟨by decide, pcm_passthrough_roundtrip [0, 1, 255] (by decide)⟩

/-! ### The ffmpeg subprocess completion handler (C6) -/

/-- Observable outcome of one run of the ffmpeg `close` event handler. -/
structure TranscodeRun where
  deletedInput : Bool
  deletedOutput : Bool
  result : Except String (List Char)
  deriving Repr

/-- The `ffmpeg.on('close', ...)` handler inside `processAudioForGemini`:
`fs.unlinkSync(inputFile)` runs unconditionally; only when the exit code is 0
is the output file read, deleted and the promise resolved with its base64;
on a non-zero exit code the promise is rejected and the output file is not
deleted. -/
def ffmpegOnClose (code : Int) (outputContents : List Nat) : TranscodeRun :=
  if code = 0 then
    { deletedInput := true, deletedOutput := true,
      result := .ok (b64encode outputContents) }
  else
    { deletedInput := true, deletedOutput := false,
      result := .error ("ffmpeg exited with code " ++ toString code) }

/-- C6 counterexample: on the failure path (exit code 1) the transcoder's
output file is not deleted, contrary to the claim that both temporary files
are deleted on success and failure alike. -/
theorem ffmpeg_output_not_deleted_on_failure :
    (ffmpegOnClose 1 []).deletedOutput = false := by decide

/-- C6 amended: the written input file is deleted on both paths, but the
transcoder's output file is deleted only on the success path (exit code 0),
where the promise resolves with the output's base64. -/
theorem ffmpeg_temp_cleanup_amended (code : Int) (outputContents : List Nat) :
    (ffmpegOnClose code outputContents).deletedInput = true
    ∧ ((ffmpegOnClose code outputContents).deletedOutput = true ↔ code = 0)
    ∧ (code = 0 →
        (ffmpegOnClose code outputContents).result = .ok (b64encode outputContents)) := by
  by_cases h : code = 0 <;> simp [ffmpegOnClose, h]

theorem ffmpeg_temp_cleanup_amended_witness :
    (ffmpegOnClose 0 [5]).deletedInput = true
    ∧ ((ffmpegOnClose 0 [5]).deletedOutput = true ↔ (0 : Int) = 0)
    ∧ ((0 : Int) = 0 → (ffmpegOnClose 0 [5]).result = .ok (b64encode [5])) :=
  ffmpeg_temp_cleanup_amended 0 [5]

/-! ### Client frame handling (`handleClientMessage`)

The source splits a transport frame with
`dataString.replace(/\x7d\s*\x7b/g, '\x7d\x7d\n\x7b').split('\n')` and then
feeds each piece through `JSON.parse` inside a per-piece try/catch.  The
regex replacement and the strictness of `JSON.parse` (no trailing input) are
modelled character for character. -/

/-- JS `\s`-style whitespace (the subset relevant to these frames). -/
def jsWhitespace (c : Char) : Bool :=
  c = ' ' || c = '\t' || c = '\n' || c = '\r' || c = '\x0b' || c = '\x0c'

/-- After a closing brace: consume `\s*` and a following opening brace, if
present (the rest of one regex match). -/
def wsThenBrace : List Char → Option (List Char)
  | [] => none
  | c :: rest =>
      if c = '\x7b' then some rest
      else if jsWhitespace c then wsThenBrace rest
      else none

/-- One left-to-right pass of the global regex replacement
`replace(/\x7d\s*\x7b/g, '\x7d\x7d\n\x7b')`; fuel is the input length. -/
def replaceBraces : Nat → List Char → List Char
  | 0, cs => cs
  | _ + 1, [] => []
  | fuel + 1, c :: rest =>
      if c = '\x7d' then
        match wsThenBrace rest with
        | some rest' => '\x7d' :: '\x7d' :: '\n' :: '\x7b' :: replaceBraces fuel rest'
        | none => '\x7d' :: replaceBraces fuel rest
      else c :: replaceBraces fuel rest

def replaceBraceBoundaries (cs : List Char) : List Char :=
  replaceBraces cs.length cs

/-- JS `String.prototype.trim`. -/
def trimChars (cs : List Char) : List Char :=
  ((cs.dropWhile jsWhitespace).reverse.dropWhile jsWhitespace).reverse

/-- Characters of a JSON string body up to the closing quote (no escapes,
which the relay's control messages never contain). -/
def parseJStringAux : List Char → Option (List Char × List Char)
  | [] => none
  | c :: rest =>
      if c = '"' then some ([], rest)
      else
        match parseJStringAux rest with
        | some (s, r) => some (c :: s, r)
        | none => none

/-- Parse a JSON string literal. -/
def parseJString : List Char → Option (String × List Char)
  | '"' :: rest =>
      match parseJStringAux rest with
      | some (s, r) => some (String.mk s, r)
      | none => none
  | _ => none

/-- Parse `"key":"value"` members separated by commas, up to the closing
brace; fuel is the input length. -/
def parseMembers : Nat → List Char → Option (List (String × String) × List Char)
  | 0, _ => none
  | fuel + 1, cs =>
      match parseJString (cs.dropWhile jsWhitespace) with
      | none => none
      | some (k, cs1) =>
          match cs1.dropWhile jsWhitespace with
          | ':' :: cs2 =>
              match parseJString (cs2.dropWhile jsWhitespace) with
              | none => none
              | some (v, cs3) =>
                  match cs3.dropWhile jsWhitespace with
                  | ',' :: cs4 =>
                      match parseMembers fuel cs4 with
                      | some (obj, rest) => some ((k, v) :: obj, rest)
                      | none => none
                  | '\x7d' :: cs4 => some ([(k, v)], cs4)
                  | _ => none
          | _ => none

/-- `JSON.parse` restricted to flat objects with string values (the only
shape the relay's control messages take); like `JSON.parse` it fails on any
non-whitespace trailing input. -/
def jsonParseFlat (cs : List Char) : Option (List (String × String)) :=
  match cs.dropWhile jsWhitespace with
  | '\x7b' :: cs1 =>
      match cs1.dropWhile jsWhitespace with
      | '\x7d' :: cs2 =>
          if (cs2.dropWhile jsWhitespace).isEmpty then some [] else none
      | _ =>
          match parseMembers cs1.length cs1 with
          | some (obj, rest) =>
              if (rest.dropWhile jsWhitespace).isEmpty then some obj else none
          | none => none
  | _ => none

/-- `obj.key` for a parsed flat object. -/
def objGet (obj : List (String × String)) (k : String) : Option String :=
  (obj.find? (fun p => p.1 == k)).map Prod.snd

/-- Which handler one split-off fragment reaches (the `switch` in
`handleClientMessage`), or how it is discarded. -/
inductive Dispatched where
  | audioChunk (data : Option String) (mimeType : Option String)
  | endTurn
  | ping
  | sessionInfo
  | unknown (msgType : Option String)
  | parseError
  | nonJson
  deriving DecidableEq, Repr

/-- Classify one fragment: skip blanks, require a leading brace, `JSON.parse`
it (errors are caught per fragment), and switch on `message.type`. -/
def dispatchFragment (frag : List Char) : Option Dispatched :=
  let t := trimChars frag
  if t.isEmpty then none
  else if t.head? = some '\x7b' then
    match jsonParseFlat frag with
    | some obj =>
        match objGet obj "type" with
        | some "audio_chunk" => some (.audioChunk (objGet obj "data") (objGet obj "mimeType"))
        | some "end_turn" => some .endTurn
        | some "ping" => some .ping
        | some "session_info" => some .sessionInfo
        | other => some (.unknown other)
    | none => some .parseError
  else some .nonJson

/-- The split-and-dispatch portion of `handleClientMessage`: the regex
replacement, the newline split, and per-fragment classification. -/
def processFrame (frame : List Char) : List Dispatched :=
  ((replaceBraceBoundaries frame).splitOn '\n').filterMap dispatchFragment

/-- `LiveVoiceServer.getSessionInfo` (the session is known to exist). -/
def getSessionInfo (s : Session) (now : Nat) : SessionInfo :=
  { id := s.id, state := s.sessionState, isActive := s.isActive,
    createdAt := s.createdAt, lastActivity := s.lastActivity,
    uptime := now - s.createdAt }

/-- `handleEndTurn` of `src/unnamed/part_010`: deliberately sends nothing
upstream (it relies on Gemini's own voice-activity detection); in particular
it does not touch the upstream connection. -/
def handleEndTurn (_s : Session) : List UpstreamAction := []

/-- `handleEndTurn` of `src/backend/src/liveVoiceServer.ts`: forwards an
explicit `turnComplete` realtime-input signal upstream (and nothing else). -/
def handleEndTurnSignal (_s : Session) : List UpstreamAction :=
  [UpstreamAction.sendTurnComplete]

/-- Client-bound messages produced while dispatching one parsed message.  An
`audio_chunk` without a `data` field makes `Buffer.from(undefined, 'base64')`
throw, which the `handleAudioChunk` catch turns into an error message. -/
def dispatchClientOuts (s : Session) (now : Nat) : Dispatched → List ClientMsg
  | .ping => sendToClient s.clientOpen .pong
  | .sessionInfo => sendToClient s.clientOpen (.sessionInfoResponse (getSessionInfo s now))
  | .audioChunk none _ => sendToClient s.clientOpen (.errorMsg "Audio processing error")
  | _ => []

/-- Upstream effects of dispatching one parsed message (part_010 variant:
`end_turn` reaches `handleEndTurn`).  A successful `audio_chunk` is
normalized and forwarded as realtime input tagged `audio/pcm;rate=16000`;
the webm branch starts the external transcoder instead. -/
def dispatchUpstream (s : Session) : Dispatched → List UpstreamAction
  | .audioChunk (some d) mime =>
      match processAudioForGemini (.b64 d.toList) mime with
      | .passthrough p => [.sendRealtimeAudio p "audio/pcm;rate=16000"]
      | .ffmpegPath input => [.startTranscode input]
      | .wavefilePath input => [.sendRealtimeResampled input]
  | .endTurn => handleEndTurn s
  | _ => []

/-- `LiveVoiceServer.handleClientMessage`: inactive or closing/closed
sessions drop the frame; otherwise `lastActivity` is bumped and every
split-off fragment is dispatched. -/
def handleClientMessage (s : Session) (now : Nat) (frame : List Char) :
    Session × List ClientMsg × List UpstreamAction :=
  if s.isActive = false then (s, [], [])
  else if ¬(s.sessionState = .connected ∨ s.sessionState = .connecting) then (s, [], [])
  else
    let s1 := { s with lastActivity := now }
    let ds := processFrame frame
    (s1, ds.flatMap (dispatchClientOuts s1 now), ds.flatMap (dispatchUpstream s1))

/-- C3: processing a client `end_turn` never invokes `close()` on the
upstream connection, in any session state: the part_010 handler sends
nothing at all, the backend variant sends only a turn-complete signal, and
the full client-message path for an `end_turn` frame emits no close either. -/
theorem end_turn_never_closes (s : Session) (now : Nat) :
    UpstreamAction.close ∉ handleEndTurn s
    ∧ UpstreamAction.close ∉ handleEndTurnSignal s
    ∧ UpstreamAction.close ∉
        (handleClientMessage s now (String.toList "\x7b\"type\":\"end_turn\"\x7d")).2.2 := by
  refine ⟨by simp [handleEndTurn], by simp [handleEndTurnSignal], ?_⟩
  have hpf : processFrame (String.toList "\x7b\"type\":\"end_turn\"\x7d") =
      [Dispatched.endTurn] := by decide
  unfold handleClientMessage
  split
  · simp
  · split
    · simp
    · simp only [hpf]
      simp [dispatchUpstream, handleEndTurn]

/-- C4 (code bug): the frame splitter rewrites a two-object frame
`\x7ba\x7d\x7bb\x7d` to `\x7ba\x7d\x7d\n\x7bb\x7d`, so the first fragment
carries a spurious extra closing brace, fails `JSON.parse`, and is dropped;
only the second object is dispatched, although both are well-formed. -/
theorem concatenated_frame_first_object_dropped :
    processFrame (String.toList "\x7b\"type\":\"ping\"\x7d\x7b\"type\":\"ping\"\x7d") =
      [Dispatched.parseError, Dispatched.ping]
    ∧ (processFrame (String.toList "\x7b\"type\":\"ping\"\x7d\x7b\"type\":\"ping\"\x7d")).count
        Dispatched.ping = 1 := by
  constructor
  · decide
  · decide

/-! ### Session registry (`this.sessions`), lifecycle callbacks and sweep -/

/-- `Map<string, LiveSession>` as an association list with unique keys. -/
abbrev Registry := List (String × Session)

/-- `this.sessions.get(sid)`. -/
def regGet : Registry → String → Option Session
  | [], _ => none
  | (k, v) :: rest, sid => if k = sid then some v else regGet rest sid

/-- In-place mutation of the stored session object (fields written through
the reference `get` returned). -/
def regSet : Registry → String → Session → Registry
  | [], _, _ => []
  | (k, v) :: rest, sid, s =>
      if k = sid then (k, s) :: rest else (k, v) :: regSet rest sid s

/-- `this.sessions.delete(sid)`. -/
def regRemove : Registry → String → Registry
  | [], _ => []
  | (k, v) :: rest, sid =>
      if k = sid then regRemove rest sid else (k, v) :: regRemove rest sid

theorem regGet_regSet_self (reg : Registry) (sid : String) (s v : Session)
    (h : regGet reg sid = some s) : regGet (regSet reg sid v) sid = some v := by
  induction reg with
  | nil => simp [regGet] at h
  | cons p rest ih =>
    obtain ⟨k, w⟩ := p
    by_cases hk : k = sid
    · simp [regGet, regSet, hk]
    · simp only [regGet, regSet, if_neg hk] at h ⊢
      exact ih h

theorem regGet_regRemove_self (reg : Registry) (sid : String) :
    regGet (regRemove reg sid) sid = none := by
  induction reg with
  | nil => rfl
  | cons p rest ih =>
    obtain ⟨k, w⟩ := p
    by_cases hk : k = sid
    · simpa [regRemove, hk] using ih
    · simpa [regRemove, regGet, hk] using ih

theorem regGet_regRemove_ne (reg : Registry) (k sid : String) (h : k ≠ sid) :
    regGet (regRemove reg k) sid = regGet reg sid := by
  induction reg with
  | nil => rfl
  | cons p rest ih =>
    obtain ⟨k', w⟩ := p
    by_cases hk : k' = k
    · subst hk
      simpa [regRemove, regGet, h] using ih
    · by_cases hs : k' = sid
      · subst hs
        simp [regRemove, regGet, hk]
      · simpa [regRemove, regGet, hk, hs] using ih

/-- The `onerror` callback installed in `handleConnection` (part_010): the
session's state becomes `error` and `lastActivity` is bumped (when the
session is still registered) and the client is notified; nothing else
happens — no registry removal and no upstream `close()`. -/
def onGeminiError (reg : Registry) (sid : String) (wsOpen : Bool) (now : Nat) :
    Registry × List ClientMsg × List UpstreamAction :=
  (match regGet reg sid with
   | some s => regSet reg sid { s with sessionState := .error, lastActivity := now }
   | none => reg,
   sendToClient wsOpen (.errorMsg "Gemini connection error"),
   [])

/-- The `onopen` callback: state `connected`, `lastActivity` bumped, client
notified with `session_started`. -/
def onGeminiOpen (reg : Registry) (sid : String) (wsOpen : Bool) (now : Nat) :
    Registry × List ClientMsg :=
  (match regGet reg sid with
   | some s => regSet reg sid { s with sessionState := .connected, lastActivity := now }
   | none => reg,
   sendToClient wsOpen (.sessionStarted sid))

/-- Net effect of one `cleanupSession` call. -/
structure CleanupResult where
  reg : Registry
  upstreamClosed : Bool
  clientClosed : Bool
  deriving DecidableEq, Repr

/-- `cleanupSession`: a registered session is driven through
`closing`/`closed`, its Gemini handle's `close()` is called (the handle
always exists once the session was stored), the client socket is closed if
still open, and the map entry is deleted; a missing id is a no-op. -/
def cleanupSession (reg : Registry) (sid : String) : CleanupResult :=
  match regGet reg sid with
  | none => { reg := reg, upstreamClosed := false, clientClosed := false }
  | some s =>
      { reg := regRemove reg sid, upstreamClosed := true, clientClosed := s.clientOpen }

/-- The `onclose` callback: the state field is set to `closed` if the
session is still registered, then `cleanupSession` runs. -/
def onGeminiClose (reg : Registry) (sid : String) (now : Nat) : CleanupResult :=
  let reg' :=
    match regGet reg sid with
    | some s => regSet reg sid { s with sessionState := .closed, lastActivity := now }
    | none => reg
  cleanupSession reg' sid

def SESSION_TIMEOUT_MS : Nat := 30 * 60 * 1000

/-- Ids collected by one sweep tick of `startSessionTimeoutMonitoring`:
sessions with `now - lastActivity > SESSION_TIMEOUT_MS`. -/
def sweepIds (reg : Registry) (now : Nat) : List String :=
  (reg.filter (fun p => decide (SESSION_TIMEOUT_MS < now - p.2.lastActivity))).map Prod.fst

/-- One step of the sweep's cleanup loop, tracking which ids had their
upstream `close()` invoked. -/
def sweepStep (acc : Registry × List String) (sid : String) : Registry × List String :=
  let r := cleanupSession acc.1 sid
  (r.reg, acc.2 ++ if r.upstreamClosed then [sid] else [])

/-- One tick of the sweep: collect timed-out ids, then clean each up through
the same `cleanupSession` used by explicit close. -/
def runSweep (reg : Registry) (now : Nat) : Registry × List String :=
  (sweepIds reg now).foldl sweepStep (reg, [])

/-- C7 counterexample: after the upstream error callback runs on a live
session, the session is still in the registry and no upstream `close()` was
invoked — the error callback alone performs no teardown, contrary to the
claim that the session "is then torn down". -/
theorem upstream_error_no_teardown :
    regGet (onGeminiError [("s1", ⟨"s1", true, .connected, [], true, 0, 0⟩)] "s1" true 5).1
        "s1" ≠ none
    ∧ (onGeminiError [("s1", ⟨"s1", true, .connected, [], true, 0, 0⟩)] "s1" true 5).2.2
        = [] := by
  constructor
  · decide
  · decide

/-- C7 amended: when the upstream error callback fires for a registered
session, the session's state is set to `error` and its `lastActivity`
bumped, and the client is sent an `error` message when its socket is open —
but the callback performs no teardown itself: the session stays in the
registry and no upstream `close()` is invoked (teardown happens only via
the separate upstream close callback / cleanup path). -/
theorem upstream_error_amended (reg : Registry) (sid : String) (s : Session)
    (wsOpen : Bool) (now : Nat) (h : regGet reg sid = some s) :
    regGet (onGeminiError reg sid wsOpen now).1 sid =
      some { s with sessionState := .error, lastActivity := now }
    ∧ (onGeminiError reg sid wsOpen now).2.1 =
        sendToClient wsOpen (.errorMsg "Gemini connection error")
    ∧ (onGeminiError reg sid wsOpen now).2.2 = [] := by
  refine ⟨?_, rfl, rfl⟩
  simp only [onGeminiError, h]
  exact regGet_regSet_self reg sid s _ h

theorem upstream_error_amended_witness :
    regGet [("s1", (⟨"s1", true, .connected, [], true, 0, 0⟩ : Session))] "s1" =
      some ⟨"s1", true, .connected, [], true, 0, 0⟩
    ∧ (regGet (onGeminiError [("s1", ⟨"s1", true, .connected, [], true, 0, 0⟩)] "s1" true 5).1
          "s1" =
        some { (⟨"s1", true, .connected, [], true, 0, 0⟩ : Session) with
                 sessionState := .error, lastActivity := 5 }
       ∧ (onGeminiError [("s1", ⟨"s1", true, .connected, [], true, 0, 0⟩)] "s1" true 5).2.1 =
           sendToClient true (.errorMsg "Gemini connection error")
       ∧ (onGeminiError [("s1", ⟨"s1", true, .connected, [], true, 0, 0⟩)] "s1" true 5).2.2 =
           []) :=
  ⟨by decide,
   upstream_error_amended [("s1", ⟨"s1", true, .connected, [], true, 0, 0⟩)] "s1"
     ⟨"s1", true, .connected, [], true, 0, 0⟩ true 5 (by decide)⟩

theorem not_mem_sweepIds (reg : Registry) (now : Nat) (sid : String)
    (h : sid ∉ reg.map Prod.fst) : sid ∉ sweepIds reg now := by
  intro hmem
  apply h
  simp only [sweepIds, List.mem_map] at hmem
  obtain ⟨p, hp, rfl⟩ := hmem
  exact List.mem_map.mpr ⟨p, (List.mem_filter.mp hp).1, rfl⟩

theorem sweepIds_count_one (reg : Registry) (now : Nat) (sid : String) (s : Session)
    (hnd : (reg.map Prod.fst).Nodup) (hget : regGet reg sid = some s)
    (hstale : SESSION_TIMEOUT_MS < now - s.lastActivity) :
    (sweepIds reg now).count sid = 1 := by
  induction reg with
  | nil => simp [regGet] at hget
  | cons p rest ih =>
    obtain ⟨k, w⟩ := p
    simp only [List.map_cons, List.nodup_cons] at hnd
    obtain ⟨hkn, hnd'⟩ := hnd
    by_cases hk : k = sid
    · have hw : w = s := by simpa [regGet, hk] using hget
      have hpred : SESSION_TIMEOUT_MS < now - w.lastActivity := by rw [hw]; exact hstale
      have hzero : (sweepIds rest now).count sid = 0 :=
        List.count_eq_zero.mpr (not_mem_sweepIds rest now sid (by rw [← hk]; exact hkn))
      have hzero' := hzero
      simp only [sweepIds] at hzero'
      simp [sweepIds, List.filter_cons, hpred, hk, List.count_cons, hzero']
    · have hget' : regGet rest sid = some s := by simpa [regGet, hk] using hget
      have hrec := ih hnd' hget'
      by_cases hp : SESSION_TIMEOUT_MS < now - w.lastActivity
      · simpa [sweepIds, List.filter_cons, hp, List.count_cons, hk,
          Ne.symm hk] using hrec
      · simpa [sweepIds, List.filter_cons, hp] using hrec

theorem sweepFold_not_mem (ids : List String) (reg : Registry) (cl : List String)
    (sid : String) (h : sid ∉ ids) :
    regGet (ids.foldl sweepStep (reg, cl)).1 sid = regGet reg sid
    ∧ (ids.foldl sweepStep (reg, cl)).2.count sid = cl.count sid := by
  induction ids generalizing reg cl with
  | nil => exact ⟨rfl, rfl⟩
  | cons id rest ih =>
    have hid : id ≠ sid := by
      rintro rfl
      exact h (List.mem_cons_self _ _)
    have hrest : sid ∉ rest := fun hm => h (List.mem_cons_of_mem _ hm)
    rw [List.foldl_cons]
    have hstep1 : regGet (sweepStep (reg, cl) id).1 sid = regGet reg sid := by
      cases hc : regGet reg id
      · simp [sweepStep, cleanupSession, hc]
      · simp [sweepStep, cleanupSession, hc, regGet_regRemove_ne _ _ _ hid]
    have hstep2 : (sweepStep (reg, cl) id).2.count sid = cl.count sid := by
      cases hc : regGet reg id
      · simp [sweepStep, cleanupSession, hc]
      · simp [sweepStep, cleanupSession, hc, List.count_append, List.count_cons,
          hid, Ne.symm hid]
    obtain ⟨ih1, ih2⟩ := ih (sweepStep (reg, cl) id).1 (sweepStep (reg, cl) id).2 hrest
    exact ⟨ih1.trans hstep1, ih2.trans hstep2⟩

theorem sweepFold_mem_once (ids : List String) (reg : Registry) (cl : List String)
    (sid : String) (s : Session) (hcount : ids.count sid = 1)
    (hget : regGet reg sid = some s) :
    regGet (ids.foldl sweepStep (reg, cl)).1 sid = none
    ∧ (ids.foldl sweepStep (reg, cl)).2.count sid = cl.count sid + 1 := by
  induction ids generalizing reg cl s with
  | nil => simp at hcount
  | cons id rest ih =>
    rw [List.foldl_cons]
    by_cases hid : id = sid
    · subst hid
      have hzero : rest.count id = 0 := by
        have hh := hcount
        simp [List.count_cons] at hh
        omega
      have hrest : id ∉ rest := List.count_eq_zero.mp hzero
      have hstep : sweepStep (reg, cl) id = (regRemove reg id, cl ++ [id]) := by
        simp [sweepStep, cleanupSession, hget]
      rw [hstep]
      obtain ⟨h1, h2⟩ := sweepFold_not_mem rest (regRemove reg id) (cl ++ [id]) id hrest
      refine ⟨?_, ?_⟩
      · rw [h1]
        exact regGet_regRemove_self reg id
      · rw [h2]
        simp [List.count_append]
    · have hcount' : rest.count sid = 1 := by
        have hh := hcount
        simp [List.count_cons, hid, Ne.symm hid] at hh
        exact hh
      have hget' : regGet (sweepStep (reg, cl) id).1 sid = some s := by
        cases hc : regGet reg id
        · simpa [sweepStep, cleanupSession, hc] using hget
        · simpa [sweepStep, cleanupSession, hc, regGet_regRemove_ne _ _ _ hid] using hget
      obtain ⟨ih1, ih2⟩ :=
        ih (sweepStep (reg, cl) id).1 (sweepStep (reg, cl) id).2 s hcount' hget'
      refine ⟨ih1, ?_⟩
      rw [ih2]
      have hcl : (sweepStep (reg, cl) id).2.count sid = cl.count sid := by
        cases hc : regGet reg id
        · simp [sweepStep, cleanupSession, hc]
        · simp [sweepStep, cleanupSession, hc, List.count_append, List.count_cons,
            hid, Ne.symm hid]
      rw [hcl]

/-- C9: a registered session whose `lastActivity` is older than the timeout
is removed from the registry by the sweep and its upstream `close()` is
invoked exactly once; the upstream on-close callback that this close
triggers re-enters `cleanupSession` on the post-sweep registry and is a
no-op there (so the close count stays one). -/
theorem idle_eviction_close_once (reg : Registry) (now : Nat) (sid : String)
    (s : Session) (hnd : (reg.map Prod.fst).Nodup) (hget : regGet reg sid = some s)
    (hstale : SESSION_TIMEOUT_MS < now - s.lastActivity) :
    regGet (runSweep reg now).1 sid = none
    ∧ (runSweep reg now).2.count sid = 1
    ∧ (onGeminiClose (runSweep reg now).1 sid now).upstreamClosed = false
    ∧ (onGeminiClose (runSweep reg now).1 sid now).reg = (runSweep reg now).1 := by
  have hc := sweepIds_count_one reg now sid s hnd hget hstale
  obtain ⟨h1, h2⟩ := sweepFold_mem_once (sweepIds reg now) reg [] sid s hc hget
  have h1' : regGet (runSweep reg now).1 sid = none := h1
  refine ⟨h1', by simpa using h2, ?_, ?_⟩
  · simp [onGeminiClose, cleanupSession, h1']
  · simp [onGeminiClose, cleanupSession, h1']

theorem idle_eviction_close_once_witness :
    ((([("s1", (⟨"s1", true, .connected, [], true, 0, 0⟩ : Session))] : Registry).map
        Prod.fst).Nodup)
    ∧ regGet [("s1", ⟨"s1", true, .connected, [], true, 0, 0⟩)] "s1" =
        some ⟨"s1", true, .connected, [], true, 0, 0⟩
    ∧ SESSION_TIMEOUT_MS <
        2000000 - (⟨"s1", true, .connected, [], true, 0, 0⟩ : Session).lastActivity
    ∧ (regGet (runSweep [("s1", ⟨"s1", true, .connected, [], true, 0, 0⟩)] 2000000).1 "s1" =
         none
       ∧ (runSweep [("s1", ⟨"s1", true, .connected, [], true, 0, 0⟩)] 2000000).2.count "s1" = 1
       ∧ (onGeminiClose (runSweep [("s1", ⟨"s1", true, .connected, [], true, 0, 0⟩)] 2000000).1
            "s1" 2000000).upstreamClosed = false
       ∧ (onGeminiClose (runSweep [("s1", ⟨"s1", true, .connected, [], true, 0, 0⟩)] 2000000).1
            "s1" 2000000).reg =
           (runSweep [("s1", ⟨"s1", true, .connected, [], true, 0, 0⟩)] 2000000).1) :=
  ⟨by decide, by decide, by decide,
   idle_eviction_close_once [("s1", ⟨"s1", true, .connected, [], true, 0, 0⟩)] 2000000 "s1"
     ⟨"s1", true, .connected, [], true, 0, 0⟩ (by decide) (by decide) (by decide)⟩

/-- C8 counterexample: a text part attributed to the user's own utterance is
forwarded with type field `"transcription"`, not `"transcript"`: on a
concrete echoed-transcription message the only send is a `transcription`
message and nothing sent carries the type `"transcript"`. -/
theorem user_echo_type_counterexample :
    (handleGeminiMessage ⟨"s1", true, .connected, [], true, 0, 0⟩
        { clientContent := some { turns := [{ parts := [{ text := some "hi" }] }] } }).2 =
      [ClientMsg.transcription "hi" true]
    ∧ ((handleGeminiMessage ⟨"s1", true, .connected, [], true, 0, 0⟩
          { clientContent :=
              some { turns := [{ parts := [{ text := some "hi" }] }] } }).2.filter
        (fun m => m.typeStr == "transcript")) = [] := by
  constructor
  · decide
  · decide

/-- C8 amended: every upstream message part attributed to the user's own
utterance (echoed transcription) is forwarded to the client with type field
exactly `"transcription"` (which the client handles alongside
`"transcript"`), text equal to the part's text, and isUser equal to true. -/
theorem user_echo_forwarded_as_transcription (s : Session) (t : String)
    (hA : s.isActive = true) (hO : s.clientOpen = true) (ht : t.isEmpty = false) :
    (handleGeminiMessage s
        { clientContent := some { turns := [{ parts := [{ text := some t }] }] } }).2 =
      [ClientMsg.transcription t true]
    ∧ ClientMsg.typeStr (ClientMsg.transcription t true) = "transcription" := by
  constructor
  · simp [handleGeminiMessage, truthyTexts, sendToClient, hA, hO, ht]
  · rfl

theorem user_echo_forwarded_as_transcription_witness :
    (⟨"s1", true, .connected, [], true, 0, 0⟩ : Session).isActive = true
    ∧ ((handleGeminiMessage ⟨"s1", true, .connected, [], true, 0, 0⟩
          { clientContent := some { turns := [{ parts := [{ text := some "ok" }] }] } }).2 =
        [ClientMsg.transcription "ok" true]
       ∧ ClientMsg.typeStr (ClientMsg.transcription "ok" true) = "transcription") :=
  ⟨rfl,
   user_echo_forwarded_as_transcription ⟨"s1", true, .connected, [], true, 0, 0⟩ "ok"
     rfl rfl rfl⟩

/-! ### The readyState guard (C10) -/

theorem flatMap_nil_of_forall {α β : Type} (l : List α) (f : α → List β)
    (h : ∀ x, f x = []) : l.flatMap f = [] := by
  induction l with
  | nil => rfl
  | cons a rest ih => simp [h a, ih]

/-- C10: every relay-to-client send goes through the
`readyState === WebSocket.OPEN` guard of `sendToClient`; once the client
socket is no longer open, the guard makes the send a silent no-op, so every
handler and upstream callback produces no client output at all. -/
theorem closed_client_send_noop (s : Session) (h : s.clientOpen = false) :
    (∀ m, sendToClient s.clientOpen m = [])
    ∧ (∀ m, (handleGeminiMessage s m).2 = [])
    ∧ (∀ now frame, (handleClientMessage s now frame).2.1 = [])
    ∧ (∀ reg sid now, (onGeminiError reg sid s.clientOpen now).2.1 = [])
    ∧ (∀ reg sid now, (onGeminiOpen reg sid s.clientOpen now).2 = []) := by
  have hsend : ∀ m, sendToClient s.clientOpen m = [] := by
    intro m
    simp [sendToClient, h]
  have htexts : ∀ (ts : List String) (f : String → ClientMsg),
      ts.flatMap (fun t => sendToClient s.clientOpen (f t)) = [] :=
    fun ts f => flatMap_nil_of_forall ts _ (fun t => hsend (f t))
  have hturns : ∀ (turns : List GeminiClientTurn),
      turns.flatMap (fun turn => (truthyTexts turn.parts).flatMap
        (fun t => sendToClient s.clientOpen (ClientMsg.transcription t true))) = [] :=
    fun turns => flatMap_nil_of_forall turns _ (fun turn => htexts _ _)
  refine ⟨hsend, ?_, ?_, ?_, ?_⟩
  · intro m
    rcases m with ⟨d, sc, cc⟩
    by_cases hact : s.isActive = false
    · simp [handleGeminiMessage, hact]
    · rcases sc with _ | ⟨mt, tc⟩
      · rcases cc with _ | ⟨turns⟩ <;> rcases d with _ | d0 <;>
          simp [handleGeminiMessage, hact, hsend, hturns, htexts]
      · rcases mt with _ | ⟨parts⟩ <;> rcases cc with _ | ⟨turns⟩ <;> rcases d with _ | d0 <;>
          simp [handleGeminiMessage, hact, hsend, hturns, htexts] <;>
          (try (split_ifs <;> simp))
  · intro now frame
    by_cases hact : s.isActive = false
    · simp [handleClientMessage, hact]
    · by_cases hst : ¬(s.sessionState = .connected ∨ s.sessionState = .connecting)
      · simp [handleClientMessage, hact, hst]
      · simp only [handleClientMessage, if_neg hact, hst, if_neg (not_not.mpr (not_not.mp hst))]
        refine flatMap_nil_of_forall _ _ (fun dd => ?_)
        cases dd with
        | audioChunk data mime => cases data <;> simp [dispatchClientOuts, sendToClient, h]
        | _ => simp [dispatchClientOuts, sendToClient, h]
  · intro reg sid now
    simp [onGeminiError, sendToClient, h]
  · intro reg sid now
    simp [onGeminiOpen, sendToClient, h]

theorem closed_client_send_noop_witness :
    sendToClient (⟨"s1", true, .connected, [], false, 0, 0⟩ : Session).clientOpen
        ClientMsg.pong = []
    ∧ (handleGeminiMessage ⟨"s1", true, .connected, [], false, 0, 0⟩ turnCompleteMsg).2 = []
    ∧ (handleClientMessage ⟨"s1", true, .connected, [], false, 0, 0⟩ 7
        (String.toList "\x7b\"type\":\"ping\"\x7d")).2.1 = []
    ∧ (onGeminiError [] "sx"
        (⟨"s1", true, .connected, [], false, 0, 0⟩ : Session).clientOpen 7).2.1 = []
    ∧ (onGeminiOpen [] "sx"
        (⟨"s1", true, .connected, [], false, 0, 0⟩ : Session).clientOpen 7).2 = [] :=
  ⟨(closed_client_send_noop _ rfl).1 _,
   (closed_client_send_noop _ rfl).2.1 _,
   (closed_client_send_noop _ rfl).2.2.1 7 _,
   (closed_client_send_noop _ rfl).2.2.2.1 [] "sx" 7,
   (closed_client_send_noop _ rfl).2.2.2.2 [] "sx" 7⟩

end LiveVoice
